import Mathlib

/-!
Verification of the SNAP-GraphVis visualization core
(`src/D3js_Project/script.js`, class `NetworkVisualization`).

The JavaScript code is shallowly embedded:
* node objects become entries of a node arena (`List PNode`); the JS object
  references used for neighbor sets and link endpoints become indices into
  that arena;
* JS `Map`/`Set` become functions / `Finset`;
* `Math.random()` draws (initial positions, default groups) become explicit
  function parameters, since no claim depends on their values;
* the mutable fields of the singleton (`data`, `filteredData`,
  `currentHighlighted`, the d3 simulation's node/link arrays and alpha, the
  force parameters, and the `hidden` CSS classes of the rendered circles and
  lines) become fields of an explicit state record `VisState`;
* JS numbers are modelled as `ℚ` (positions, radii, alpha) and `Nat`
  (identifiers, degrees); the script only ever adds, divides by constants and
  compares them, so no floating-point behaviour is claim-relevant.
-/

namespace SnapGraphVis

/-- A raw input node (`rawData.nodes` entry): an id and an optional group. -/
structure RawNode where
  id : Nat
  group : Option Nat
  deriving DecidableEq

/-- A raw input link (`rawData.links` entry): source and target ids. -/
structure RawLink where
  source : Nat
  target : Nat
  deriving DecidableEq

/-- The `this.config` record of the script (layout bounds, force parameters,
truncation bound, radius clamp bounds, simulation cooling parameters). -/
structure Config where
  width : ℚ
  height : ℚ
  chargeStrength : ℚ
  linkDistance : ℚ
  maxNodes : Nat
  minNodeRadius : ℚ
  maxNodeRadius : ℚ
  simulationAlpha : ℚ
  simulationDecay : ℚ
  deriving DecidableEq

/-- The constructor's `this.config` with its literal constants; width and
height come from the window size and stay parameters. -/
def mkConfig (w h : ℚ) : Config :=
  { width := w
    height := h
    chargeStrength := -30
    linkDistance := 80
    maxNodes := 2000
    minNodeRadius := 2
    maxNodeRadius := 6
    simulationAlpha := 3/10
    simulationDecay := 1/50 }

/-- A processed node (`processedNodes` entry).  `neighbors` holds arena
indices (the JS code stores object references).  All four position
properties are JS object properties and may hold `undefined` (`none`):
`x`/`y` are assigned at build time but a layout import can overwrite them
with an absent field, and `fx`/`fy` are unset until a pin. -/
structure PNode where
  id : Nat
  group : Nat
  degree : Nat
  neighbors : Finset Nat
  x : Option ℚ
  y : Option ℚ
  fx : Option ℚ
  fy : Option ℚ
  radius : ℚ
  deriving DecidableEq, Inhabited

/-- A processed link (`processedLinks` entry): arena indices of the two
endpoint node objects, plus the raw link kept as `originalData`. -/
structure PLink where
  source : Nat
  target : Nat
  raw : RawLink
  deriving DecidableEq

/-- Read the node object at arena index `i` (a JS object dereference). -/
def getN (st : List PNode) (i : Nat) : PNode :=
  st.getD i default

/-- In-place update of the object at index `i`, as JS field mutation. -/
def modifyIdx {α : Type} : List α → Nat → (α → α) → List α
  | [], _, _ => []
  | a :: l, 0, f => f a :: l
  | a :: l, i + 1, f => a :: modifyIdx l i f

/-- The pre-truncation degree map of `preprocessData`: for each link the
counters of `link.source` and `link.target` are both incremented, whether or
not those ids occur in the raw node list (`nodeDegrees` in the script). -/
def nodeDegrees (links : List RawLink) : Nat → Nat :=
  links.foldl
    (fun m l =>
      let m1 := fun j => if j = l.source then m j + 1 else m j
      fun j => if j = l.target then m1 j + 1 else m1 j)
    (fun _ => 0)

/-- The comparison realised by the script's stable
`sort((a, b) => b.degree - a.degree)` on index-annotated nodes: higher degree
first, ties kept in original input order.  (ECMAScript guarantees
`Array.prototype.sort` to be stable, so the stable sort's output is exactly
the unique permutation sorted by this total order on (degree, index).) -/
def degLe (deg : Nat → Nat) (a b : Nat × RawNode) : Bool :=
  decide (deg b.2.id < deg a.2.id ∨ (deg a.2.id = deg b.2.id ∧ a.1 ≤ b.1))

/-- The truncation phase of `preprocessData`: if there are more than
`maxNodes` raw nodes, keep the `maxNodes` of highest pre-truncation degree
(stable order) and drop every link with an endpoint outside the selection. -/
def truncate (cfg : Config) (nodes : List RawNode) (links : List RawLink) :
    List RawNode × List RawLink :=
  if cfg.maxNodes < nodes.length then
    let deg := nodeDegrees links
    let sortedNodes := ((nodes.enum).mergeSort (degLe deg)).take cfg.maxNodes
    let selectedIds := sortedNodes.map (fun p => p.2.id)
    (sortedNodes.map (fun p => p.2),
      links.filter (fun l => selectedIds.contains l.source && selectedIds.contains l.target))
  else
    (nodes, links)

/-- The `processedNodes` construction: fresh node objects with zero degree,
empty neighbor set, random position in the layout bounds and a group
defaulting pseudo-randomly when absent (JS `node.group || random` also
replaces an explicit group `0`, which is falsy). -/
def initNodes (randPos : Nat → ℚ × ℚ) (randGroup : Nat → Nat)
    (nodes : List RawNode) : List PNode :=
  nodes.enum.map (fun p =>
    { id := p.2.id
      group := match p.2.group with
               | some g => if g = 0 then randGroup p.1 else g
               | none => randGroup p.1
      degree := 0
      neighbors := ∅
      x := some (randPos p.1).1
      y := some (randPos p.1).2
      fx := none
      fy := none
      radius := 0 })

/-- The `nodeById` map: `new Map(processedNodes.map(d => [d.id, d]))`; with
duplicate ids the later entry wins, so this is the last index carrying the
id. -/
def nodeById : List PNode → Nat → Option Nat
  | [], _ => none
  | n :: ns, q =>
    match nodeById ns q with
    | some j => some (j + 1)
    | none => if n.id = q then some 0 else none

/-- `source.neighbors.add(target)` on the object at index `i`. -/
def addNeighborAt (st : List PNode) (i j : Nat) : List PNode :=
  modifyIdx st i (fun n => { n with neighbors := insert j n.neighbors })

/-- `node.degree++` on the object at index `i`. -/
def bumpDegreeAt (st : List PNode) (i : Nat) : List PNode :=
  modifyIdx st i (fun n => { n with degree := n.degree + 1 })

/-- One step of the `processedLinks` loop: if both endpoint ids resolve,
mutate the two endpoint objects (neighbor adds, then degree increments, in
source order) and emit the processed link; otherwise (`return null`,
dropped by `.filter(Boolean)`) leave everything unchanged. -/
def linkStep (byId : Nat → Option Nat) (acc : List PNode × List PLink)
    (l : RawLink) : List PNode × List PLink :=
  match byId l.source, byId l.target with
  | some si, some ti =>
    (bumpDegreeAt (bumpDegreeAt (addNeighborAt (addNeighborAt acc.1 si ti) ti si) si) ti,
      acc.2 ++ [{ source := si, target := ti, raw := l }])
  | _, _ => acc

/-- The whole `processedLinks` pass (degree and neighbor recomputation). -/
def processLinks (byId : Nat → Option Nat) (st : List PNode)
    (links : List RawLink) : List PNode × List PLink :=
  links.foldl (linkStep byId) (st, [])

/-- The radius pass: `max(minNodeRadius, min(maxNodeRadius, degree / 3))`. -/
def setRadius (cfg : Config) (n : PNode) : PNode :=
  { n with radius := max cfg.minNodeRadius (min cfg.maxNodeRadius ((n.degree : ℚ) / 3)) }

/-- The value returned by `preprocessData`: node arena plus processed links. -/
structure Graph where
  store : List PNode
  links : List PLink
  deriving DecidableEq

/-- `preprocessData(rawData)`: truncation, node construction, link
resolution with degree/neighbor bookkeeping, radius precomputation. -/
def preprocessData (cfg : Config) (randPos : Nat → ℚ × ℚ)
    (randGroup : Nat → Nat) (rawNodes : List RawNode)
    (rawLinks : List RawLink) : Graph :=
  let t := truncate cfg rawNodes rawLinks
  let pn := initNodes randPos randGroup t.1
  let res := processLinks (nodeById pn) pn t.2
  { store := res.1.map (setRadius cfg), links := res.2 }

/-!
The interactive state.  `filteredNodes`/`filteredLinks` mirror
`this.filteredData` (subsets of the full graph, sharing the arena);
`simNodes`/`simLinks`/`alpha` mirror the arrays and cooling parameter of the
d3 force simulation; `nodeHidden`/`linkHidden` record the `hidden` CSS class
of the rendered circle/line elements, which are bound positionally (d3's
default index join) to `filteredNodes`/`filteredLinks`.
-/

/-- The claim-relevant mutable state of the `NetworkVisualization` singleton. -/
structure VisState where
  store : List PNode
  dataLinks : List PLink
  filteredNodes : List Nat
  filteredLinks : List PLink
  currentHighlighted : Option Nat
  nodeHidden : List Bool
  linkHidden : List Bool
  simNodes : List Nat
  simLinks : List PLink
  alpha : ℚ
  chargeStrength : ℚ
  linkDistance : ℚ
  deriving DecidableEq

/-- State after `loadData` + `createVisualization`:
`filteredData = { ...data }` shares the full node/link sets, nothing is
hidden, the simulation runs on the full sets with `alpha = simulationAlpha`. -/
def initState (cfg : Config) (g : Graph) : VisState :=
  { store := g.store
    dataLinks := g.links
    filteredNodes := List.range g.store.length
    filteredLinks := g.links
    currentHighlighted := none
    nodeHidden := List.replicate g.store.length false
    linkHidden := List.replicate g.links.length false
    simNodes := List.range g.store.length
    simLinks := g.links
    alpha := cfg.simulationAlpha
    chargeStrength := cfg.chargeStrength
    linkDistance := cfg.linkDistance }

/-- The `hidden`-class flags surviving a d3 index join against `n` new data:
elements in the overlap keep their class, entering elements have none. -/
def joinFlags (old : List Bool) (n : Nat) : List Bool :=
  old.take n ++ List.replicate (n - old.length) false

/-- `updateVisualization()`: re-join the DOM to the filtered data, point the
simulation at the filtered node/link arrays and restart with `alpha(1)`. -/
def updateVisualization (s : VisState) : VisState :=
  { s with
    nodeHidden := joinFlags s.nodeHidden s.filteredNodes.length
    linkHidden := joinFlags s.linkHidden s.filteredLinks.length
    simNodes := s.filteredNodes
    simLinks := s.filteredLinks
    alpha := 1 }

/-- `filterByDegree(maxDegree)`: filter the full node set by
`degree <= maxDegree`, the full link set by both endpoint degrees, then
`updateVisualization()`. -/
def filterByDegree (s : VisState) (d : Nat) : VisState :=
  updateVisualization
    { s with
      filteredNodes :=
        (List.range s.store.length).filter (fun i => decide ((getN s.store i).degree ≤ d))
      filteredLinks :=
        s.dataLinks.filter (fun l =>
          decide ((getN s.store l.source).degree ≤ d) &&
            decide ((getN s.store l.target).degree ≤ d)) }

/-- Result reported by `searchNode` (highlight + center, or the
`alert` that the id was not found). -/
inductive SearchResult
  | found (idx : Nat)
  | notFound
  deriving DecidableEq

/-- `clearHighlight()`: drops the highlight classes and the focus marker. -/
def clearHighlight (s : VisState) : VisState :=
  { s with currentHighlighted := none }

/-- `highlightNode(node)`: clear the previous focus, then mark `i` focused
(the CSS highlight classes and the detail panel are rendering only). -/
def highlightNode (s : VisState) (i : Nat) : VisState :=
  { clearHighlight s with currentHighlighted := some i }

/-- `searchNode()`: look the id up in `filteredData.nodes` (the currently
visible subset); on success highlight the first match, otherwise alert. -/
def searchNode (s : VisState) (q : Nat) : VisState × SearchResult :=
  match s.filteredNodes.find? (fun i => decide ((getN s.store i).id = q)) with
  | some i => (highlightNode s i, SearchResult.found i)
  | none => (s, SearchResult.notFound)

/-- The `#displayMode` options. -/
inductive DisplayMode
  | all
  | neighbors
  | highlighted
  deriving DecidableEq

/-- `showAllNodes()`: remove the `hidden` class from every rendered element. -/
def showAllNodes (s : VisState) : VisState :=
  { s with
    nodeHidden := s.nodeHidden.map (fun _ => false)
    linkHidden := s.linkHidden.map (fun _ => false) }

/-- `showNeighborsOnly()`: without a current highlight, return immediately;
otherwise hide each rendered node that is neither the highlighted node (by
id) nor one of its neighbors (by object reference), and hide each rendered
link with no endpoint id equal to the highlighted id. -/
def showNeighborsOnly (s : VisState) : VisState :=
  match s.currentHighlighted with
  | none => s
  | some h =>
    { s with
      nodeHidden := s.filteredNodes.map (fun i =>
        decide ((getN s.store i).id ≠ (getN s.store h).id ∧
          i ∉ (getN s.store h).neighbors))
      linkHidden := s.filteredLinks.map (fun l =>
        decide ((getN s.store l.source).id ≠ (getN s.store h).id ∧
          (getN s.store l.target).id ≠ (getN s.store h).id)) }

/-- `showHighlightedOnly()` reads `d3.select(this)` inside an arrow function,
so `this` is the `NetworkVisualization` instance, not a DOM element; as soon
as one rendered element exists the class lookup throws a `TypeError`
(`none` here) and no flag is written.  With nothing rendered the per-element
callbacks never run and the state is unchanged. -/
def showHighlightedOnly (s : VisState) : Option VisState :=
  if s.filteredNodes.isEmpty && s.filteredLinks.isEmpty then some s else none

/-- `setDisplayMode(mode)` dispatch. -/
def setDisplayMode (s : VisState) (m : DisplayMode) : Option VisState :=
  match m with
  | DisplayMode.all => some (showAllNodes s)
  | DisplayMode.neighbors => some (showNeighborsOnly s)
  | DisplayMode.highlighted => showHighlightedOnly s

/-- `updateForceParameters()`: install new charge/link forces (rebinding the
filtered links) and re-warm with `alpha(0.3).restart()`; node positions and
pins are untouched. -/
def updateForceParameters (s : VisState) (charge dist : ℚ) : VisState :=
  { s with
    chargeStrength := charge
    linkDistance := dist
    simLinks := s.filteredLinks
    alpha := 3/10 }

/-- A node entry of the exported layout JSON (position properties copied
verbatim, `undefined` included). -/
structure LayoutNode where
  id : Nat
  x : Option ℚ
  y : Option ℚ
  fx : Option ℚ
  fy : Option ℚ
  deriving DecidableEq

/-- A link entry of the exported layout JSON (endpoint ids). -/
structure LayoutLink where
  source : Nat
  target : Nat
  deriving DecidableEq

/-- The counts of the exported `metadata` block (`exportTime`, a wall-clock
string, is not modelled). -/
structure LayoutMeta where
  nodeCount : Nat
  linkCount : Nat
  deriving DecidableEq

/-- The exported layout object. -/
structure LayoutExport where
  nodes : List LayoutNode
  links : List LayoutLink
  meta : LayoutMeta
  deriving DecidableEq

/-- `exportLayout()`: snapshot of the *filtered* data: per filtered node its
id/x/y/fx/fy, per filtered link its endpoint ids, plus counts. -/
def exportLayout (s : VisState) : LayoutExport :=
  { nodes := s.filteredNodes.map (fun i =>
      { id := (getN s.store i).id
        x := (getN s.store i).x
        y := (getN s.store i).y
        fx := (getN s.store i).fx
        fy := (getN s.store i).fy })
    links := s.filteredLinks.map (fun l =>
      { source := (getN s.store l.source).id
        target := (getN s.store l.target).id })
    meta := { nodeCount := s.filteredNodes.length
              linkCount := s.filteredLinks.length } }

/-- A parsed JSON value sitting in a slot of the imported `layout.nodes`
array: `null` (or any non-object — dereferencing its `id` throws), or an
object whose fields may each be absent or of a non-matching type
(JS `undefined` / never-equal, `none` here). -/
inductive LayoutEntry
  | null
  | obj (id : Option Nat) (x : Option ℚ) (y : Option ℚ)
      (fx : Option ℚ) (fy : Option ℚ)
  deriving DecidableEq

/-- A parsed import payload; either top-level field may be missing
(`layout.nodes && layout.links` is then falsy and `applyLayout` does
nothing).  A truthy non-array `nodes` field would make `forEach` itself
throw before visiting any entry — observably the same as the parse-failure
path, so it is not modelled separately. -/
structure LayoutPayload where
  nodes : Option (List LayoutEntry)
  links : Option (List LayoutLink)
  deriving DecidableEq

/-- What the `reader.onload` handler reports: success, or the
format-error alert raised by its catch block. -/
inductive ImportOutcome
  | ok
  | formatError
  deriving DecidableEq

/-- The `layout.nodes.forEach` loop of `applyLayout`, run inside the
try block of `importLayout`: each object entry looks its id up among the
filtered nodes and, on a match, overwrites that node's `x`/`y`/`fx`/`fy`
with the entry's fields (absent fields write `undefined`); an entry without
a matching id changes nothing; a `null` entry throws `TypeError` on
`layoutNode.id`, aborting the loop — mutations already applied stay.
Returns the arena and whether the loop threw. -/
def applyNodesLoop (filtered : List Nat) :
    List PNode → List LayoutEntry → List PNode × Bool
  | st, [] => (st, false)
  | st, LayoutEntry.null :: _ => (st, true)
  | st, LayoutEntry.obj id? x y fx fy :: rest =>
    let st' :=
      match id? with
      | none => st
      | some q =>
        match filtered.find? (fun i => decide ((getN st i).id = q)) with
        | some i => modifyIdx st i (fun n => { n with x := x, y := y, fx := fx, fy := fy })
        | none => st
    applyNodesLoop filtered st' rest

/-- `applyLayout(layout)`: when `nodes` or `links` is missing nothing
happens at all; otherwise the node loop runs — if it completes,
`updatePositions()` and `alpha(0.1).restart()` follow; if it throws, the
exception propagates (to `importLayout`'s catch) with the partial mutations
kept and without the alpha re-warm. -/
def applyLayout (s : VisState) (l : LayoutPayload) : VisState × ImportOutcome :=
  match l.nodes, l.links with
  | some entries, some _ =>
    let r := applyNodesLoop s.filteredNodes s.store entries
    if r.2 then ({ s with store := r.1 }, ImportOutcome.formatError)
    else ({ s with store := r.1, alpha := 1/10 }, ImportOutcome.ok)
  | _, _ => (s, ImportOutcome.ok)

/-- `importLayout(event)`: `JSON.parse` and `applyLayout` both run inside
one try block; a parse failure (`none`) alerts with no state change, and a
`TypeError` escaping `applyLayout`'s loop is caught by the same handler
after the loop's mutations have already happened. -/
def importLayout (s : VisState) (payload : Option LayoutPayload) :
    VisState × ImportOutcome :=
  match payload with
  | none => (s, ImportOutcome.formatError)
  | some l => applyLayout s l

/-- The rendered node elements currently visible: those bound data whose
element does not carry the `hidden` class. -/
def visibleNodeIdxs (s : VisState) : List Nat :=
  (s.filteredNodes.zip s.nodeHidden).filterMap
    (fun p => if p.2 then none else some p.1)

/-- The rendered link elements currently visible. -/
def visibleLinks (s : VisState) : List PLink :=
  (s.filteredLinks.zip s.linkHidden).filterMap
    (fun p => if p.2 then none else some p.1)

/-!
Concrete instances used by witnesses, counterexamples and the worked
example of the specification (§8): the 5-node graph
`{1,2,3,4,5}` with links `{(1,2),(1,3),(1,4),(2,3)}` and `maxNodes = 5`.
-/

/-- Config of the spec's example scenario (`maxNodes = 5`, no truncation). -/
def exCfg : Config :=
  { width := 100
    height := 100
    chargeStrength := -30
    linkDistance := 80
    maxNodes := 5
    minNodeRadius := 2
    maxNodeRadius := 6
    simulationAlpha := 3/10
    simulationDecay := 1/50 }

/-- A fixed draw for the random initial positions. -/
def exPos : Nat → ℚ × ℚ := fun _ => (0, 0)

/-- A fixed draw for the random default groups. -/
def exGroup : Nat → Nat := fun _ => 0

/-- Example raw nodes `{1,2,3,4,5}`. -/
def exNodes : List RawNode :=
  [{ id := 1, group := none }, { id := 2, group := none },
    { id := 3, group := none }, { id := 4, group := none },
    { id := 5, group := none }]

/-- Example raw links `{(1,2),(1,3),(1,4),(2,3)}`. -/
def exLinks : List RawLink :=
  [{ source := 1, target := 2 }, { source := 1, target := 3 },
    { source := 1, target := 4 }, { source := 2, target := 3 }]

/-- The example scenario's built graph. -/
def exGraph : Graph := preprocessData exCfg exPos exGroup exNodes exLinks

/-- The example scenario's initial interactive state. -/
def exState : VisState := initState exCfg exGraph

/-- A config forcing truncation (`maxNodes = 2`). -/
def truncCfg : Config :=
  { exCfg with maxNodes := 2 }

/-- Raw nodes for the truncation instance. -/
def truncNodes : List RawNode :=
  [{ id := 10, group := none }, { id := 20, group := none },
    { id := 30, group := none }]

/-- Raw links for the truncation instance; `(99, 20)` references an id
absent from the node list, still counting toward 20's rank. -/
def truncLinks : List RawLink :=
  [{ source := 20, target := 30 }, { source := 30, target := 10 },
    { source := 99, target := 20 }]

/-- A single node with a self-loop link. -/
def loopNodes : List RawNode := [{ id := 7, group := none }]

/-- The self-loop link `(7, 7)`. -/
def loopLinks : List RawLink := [{ source := 7, target := 7 }]

/-- The graph built from the self-loop instance. -/
def loopGraph : Graph := preprocessData exCfg exPos exGroup loopNodes loopLinks

/-- A parseable but corrupt import payload,
`{"nodes": [{"id": 1, "x": 5, "y": 5}, null], "links": []}`: a valid entry
for node 1 followed by a `null` entry. -/
def corruptPayload : LayoutPayload :=
  { nodes := some [LayoutEntry.obj (some 1) (some 5) (some 5) none none,
      LayoutEntry.null]
    links := some [] }

/-!
Observation functions used to state the claims, and the spec predicate of
the truncation claim.
-/

/-- The links of the `processedLinks` loop that resolve, in order (the
`.map(...).filter(Boolean)` result, without the arena mutations). -/
def resolveAll (byId : Nat → Option Nat) (links : List RawLink) : List PLink :=
  links.filterMap (fun l =>
    match byId l.source, byId l.target with
    | some si, some ti => some { source := si, target := ti, raw := l }
    | _, _ => none)

/-- The endpoints paired with arena index `i` by a processed link list, with
multiplicity, in loop order: a link contributes its target when its source
is `i` and its source when its target is `i` (both, for a self-loop). -/
def partners : List PLink → Nat → List Nat
  | [], _ => []
  | l :: pl, i =>
    (if l.source = i then [l.target] else []) ++
      ((if l.target = i then [l.source] else []) ++ partners pl i)

/-- Effect on one node object of a batch of incident links: degree grows by
the multiplicity, the neighbor set absorbs the partner indices. -/
def updNode (n : PNode) (p : List Nat) : PNode :=
  { n with degree := n.degree + p.length, neighbors := n.neighbors ∪ p.toFinset }

/-- Number of links of `pl` incident to arena index `i` (each link counted
once, a self-loop too). -/
def incidentCount (pl : List PLink) (i : Nat) : Nat :=
  (pl.filter (fun l => decide (l.source = i ∨ l.target = i))).length

/-- Two links joining the same unordered pair of arena indices. -/
def samePair (l1 l2 : PLink) : Prop :=
  (l1.source = l2.source ∧ l1.target = l2.target) ∨
    (l1.source = l2.target ∧ l1.target = l2.source)

instance : DecidableRel samePair := fun l1 l2 => by
  unfold samePair; infer_instance

/-- The truncation property claimed for `preprocessData` on oversize input:
exactly `maxNodes` nodes survive, they are the top `maxNodes` raw nodes by
pre-truncation degree in descending order with the original input order as
tie-break (witnessed by a selection list `sel` of original indices and
nodes), and every retained link points at retained arena slots. -/
def TruncationSpec (cfg : Config) (rawNodes : List RawNode)
    (rawLinks : List RawLink) (g : Graph) : Prop :=
  g.store.length = cfg.maxNodes ∧
  (∃ sel : List (Nat × RawNode),
    g.store.map PNode.id = sel.map (fun p => p.2.id) ∧
    (∀ p ∈ sel, rawNodes[p.1]? = some p.2) ∧
    (sel.map Prod.fst).Nodup ∧
    sel.Pairwise (fun a b =>
      nodeDegrees rawLinks b.2.id < nodeDegrees rawLinks a.2.id ∨
        (nodeDegrees rawLinks a.2.id = nodeDegrees rawLinks b.2.id ∧ a.1 < b.1)) ∧
    (∀ q : Nat, ∀ x : RawNode, rawNodes[q]? = some x → q ∉ sel.map Prod.fst →
      ∀ p ∈ sel,
        nodeDegrees rawLinks x.id < nodeDegrees rawLinks p.2.id ∨
          (nodeDegrees rawLinks x.id = nodeDegrees rawLinks p.2.id ∧ p.1 < q))) ∧
  (∀ l ∈ g.links, l.source < g.store.length ∧ l.target < g.store.length)

/-! Helper lemmas about the arena primitives. -/

theorem length_modifyIdx {α : Type} :
    ∀ (l : List α) (i : Nat) (f : α → α), (modifyIdx l i f).length = l.length
  | [], _, _ => rfl
  | _ :: _, 0, _ => rfl
  | _ :: l, i + 1, f => by simp [modifyIdx, length_modifyIdx l i f]

theorem getN_cons_zero (a : PNode) (l : List PNode) : getN (a :: l) 0 = a := rfl

theorem getN_cons_succ (a : PNode) (l : List PNode) (i : Nat) :
    getN (a :: l) (i + 1) = getN l i := rfl

theorem getN_modifyIdx_self :
    ∀ (st : List PNode) (i : Nat) (f : PNode → PNode), i < st.length →
      getN (modifyIdx st i f) i = f (getN st i)
  | _ :: _, 0, _, _ => rfl
  | _ :: st, i + 1, f, h =>
    getN_modifyIdx_self st i f (Nat.lt_of_succ_lt_succ h)

theorem getN_modifyIdx_ne :
    ∀ (st : List PNode) (i j : Nat) (f : PNode → PNode), j ≠ i →
      getN (modifyIdx st i f) j = getN st j
  | [], _, _, _, _ => rfl
  | _ :: _, 0, 0, _, h => absurd rfl h
  | _ :: _, 0, _ + 1, _, _ => rfl
  | _ :: _, _ + 1, 0, _, _ => rfl
  | _ :: st, i + 1, j + 1, f, h =>
    getN_modifyIdx_ne st i j f (fun e => h (congrArg Nat.succ e))

theorem getN_eq_get :
    ∀ (st : List PNode) (i : Nat) (h : i < st.length), getN st i = st.get ⟨i, h⟩
  | _ :: _, 0, _ => rfl
  | _ :: st, i + 1, h => getN_eq_get st i (Nat.lt_of_succ_lt_succ h)

theorem getN_list_map {α : Type} (f : α → PNode) :
    ∀ (l : List α) (i : Nat) (h : i < l.length),
      getN (l.map f) i = f (l.get ⟨i, h⟩)
  | _ :: _, 0, _ => rfl
  | _ :: l, i + 1, h => getN_list_map f l i (Nat.lt_of_succ_lt_succ h)

/-! Characterization of the `processedLinks` fold. -/

theorem resolveAll_cons_none_src (byId : Nat → Option Nat) (l : RawLink)
    (ls : List RawLink) (hs : byId l.source = none) :
    resolveAll byId (l :: ls) = resolveAll byId ls := by
  simp [resolveAll, hs]

theorem resolveAll_cons_none_tgt (byId : Nat → Option Nat) (l : RawLink)
    (ls : List RawLink) (si : Nat) (hs : byId l.source = some si)
    (ht : byId l.target = none) :
    resolveAll byId (l :: ls) = resolveAll byId ls := by
  simp [resolveAll, hs, ht]

theorem resolveAll_cons_some (byId : Nat → Option Nat) (l : RawLink)
    (ls : List RawLink) (si ti : Nat) (hs : byId l.source = some si)
    (ht : byId l.target = some ti) :
    resolveAll byId (l :: ls)
      = { source := si, target := ti, raw := l } :: resolveAll byId ls := by
  simp [resolveAll, hs, ht]

theorem processAux_snd (byId : Nat → Option Nat) (ls : List RawLink) :
    ∀ (st : List PNode) (acc : List PLink),
      (ls.foldl (linkStep byId) (st, acc)).2 = acc ++ resolveAll byId ls := by
  induction ls with
  | nil => intro st acc; simp [resolveAll]
  | cons l ls ih =>
    intro st acc
    cases hs : byId l.source with
    | none =>
      simp only [List.foldl_cons, linkStep, hs, ih,
        resolveAll_cons_none_src byId l ls hs]
    | some si =>
      cases ht : byId l.target with
      | none =>
        simp only [List.foldl_cons, linkStep, hs, ht, ih,
          resolveAll_cons_none_tgt byId l ls si hs ht]
      | some ti =>
        simp only [List.foldl_cons, linkStep, hs, ht, ih,
          resolveAll_cons_some byId l ls si ti hs ht, List.append_assoc,
          List.singleton_append]

theorem processAux_length (byId : Nat → Option Nat) (ls : List RawLink) :
    ∀ (st : List PNode) (acc : List PLink),
      ((ls.foldl (linkStep byId) (st, acc)).1).length = st.length := by
  induction ls with
  | nil => intro st acc; rfl
  | cons l ls ih =>
    intro st acc
    cases hs : byId l.source with
    | none => simp only [List.foldl_cons, linkStep, hs, ih]
    | some si =>
      cases ht : byId l.target with
      | none => simp only [List.foldl_cons, linkStep, hs, ht, ih]
      | some ti =>
        simp only [List.foldl_cons, linkStep, hs, ht, ih, bumpDegreeAt,
          addNeighborAt, length_modifyIdx]

theorem updNode_nil (n : PNode) : updNode n [] = n := by
  simp [updNode]

theorem updNode_updNode (n : PNode) (p q : List Nat) :
    updNode (updNode n p) q = updNode n (p ++ q) := by
  simp [updNode, Finset.union_assoc, Nat.add_assoc]

theorem getN_linkTouch (st : List PNode) (si ti i : Nat) (hi : i < st.length) :
    getN (bumpDegreeAt (bumpDegreeAt (addNeighborAt (addNeighborAt st si ti) ti si) si) ti) i
      = updNode (getN st i)
          ((if si = i then [ti] else []) ++ (if ti = i then [si] else [])) := by
  by_cases hsi : si = i
  · by_cases hti : ti = i
    · subst hsi; subst hti
      simp only [bumpDegreeAt, addNeighborAt]
      rw [getN_modifyIdx_self _ _ _ (by simpa [length_modifyIdx] using hi),
          getN_modifyIdx_self _ _ _ (by simpa [length_modifyIdx] using hi),
          getN_modifyIdx_self _ _ _ (by simpa [length_modifyIdx] using hi),
          getN_modifyIdx_self _ _ _ hi]
      simp [updNode]
      apply Finset.ext; intro x; simp; tauto
    · subst hsi
      simp only [bumpDegreeAt, addNeighborAt]
      rw [getN_modifyIdx_ne _ _ _ _ (fun e => hti e.symm),
          getN_modifyIdx_self _ _ _ (by simpa [length_modifyIdx] using hi),
          getN_modifyIdx_ne _ _ _ _ (fun e => hti e.symm),
          getN_modifyIdx_self _ _ _ hi]
      simp [updNode, hti]
      apply Finset.ext; intro x; simp; tauto
  · by_cases hti : ti = i
    · subst hti
      simp only [bumpDegreeAt, addNeighborAt]
      rw [getN_modifyIdx_self _ _ _ (by simpa [length_modifyIdx] using hi),
          getN_modifyIdx_ne _ _ _ _ (fun e => hsi e.symm),
          getN_modifyIdx_self _ _ _ (by simpa [length_modifyIdx] using hi),
          getN_modifyIdx_ne _ _ _ _ (fun e => hsi e.symm)]
      simp [updNode, hsi]
      apply Finset.ext; intro x; simp; tauto
    · simp only [bumpDegreeAt, addNeighborAt]
      rw [getN_modifyIdx_ne _ _ _ _ (fun e => hti e.symm),
          getN_modifyIdx_ne _ _ _ _ (fun e => hsi e.symm),
          getN_modifyIdx_ne _ _ _ _ (fun e => hti e.symm),
          getN_modifyIdx_ne _ _ _ _ (fun e => hsi e.symm)]
      simp [updNode, hsi, hti]

theorem getN_processAux (byId : Nat → Option Nat) (ls : List RawLink) :
    ∀ (st : List PNode) (acc : List PLink) (i : Nat), i < st.length →
      getN ((ls.foldl (linkStep byId) (st, acc)).1) i
        = updNode (getN st i) (partners (resolveAll byId ls) i) := by
  induction ls with
  | nil =>
    intro st acc i hi
    simp [resolveAll, partners, updNode_nil]
  | cons l ls ih =>
    intro st acc i hi
    cases hs : byId l.source with
    | none =>
      rw [List.foldl_cons]
      have hstep : linkStep byId (st, acc) l = (st, acc) := by simp [linkStep, hs]
      rw [hstep, ih st acc i hi, resolveAll_cons_none_src byId l ls hs]
    | some si =>
      cases ht : byId l.target with
      | none =>
        rw [List.foldl_cons]
        have hstep : linkStep byId (st, acc) l = (st, acc) := by
          simp [linkStep, hs, ht]
        rw [hstep, ih st acc i hi, resolveAll_cons_none_tgt byId l ls si hs ht]
      | some ti =>
        rw [List.foldl_cons]
        have hstep : linkStep byId (st, acc) l
            = (bumpDegreeAt (bumpDegreeAt (addNeighborAt (addNeighborAt st si ti) ti si) si) ti,
                acc ++ [{ source := si, target := ti, raw := l }]) := by
          simp [linkStep, hs, ht]
        have hlen :
            (bumpDegreeAt (bumpDegreeAt (addNeighborAt (addNeighborAt st si ti) ti si) si) ti).length
              = st.length := by
          simp [bumpDegreeAt, addNeighborAt, length_modifyIdx]
        rw [hstep, ih _ _ i (by rw [hlen]; exact hi),
          getN_linkTouch st si ti i hi, updNode_updNode,
          resolveAll_cons_some byId l ls si ti hs ht]
        simp [partners, List.append_assoc]

/-! From the fold characterization to `preprocessData`. -/

theorem initNodes_length (randPos : Nat → ℚ × ℚ) (randGroup : Nat → Nat)
    (nodes : List RawNode) :
    (initNodes randPos randGroup nodes).length = nodes.length := by
  simp [initNodes]

theorem getN_initNodes (randPos : Nat → ℚ × ℚ) (randGroup : Nat → Nat)
    (nodes : List RawNode) (i : Nat) (hi : i < nodes.length) :
    (getN (initNodes randPos randGroup nodes) i).degree = 0 ∧
    (getN (initNodes randPos randGroup nodes) i).neighbors = ∅ ∧
    (getN (initNodes randPos randGroup nodes) i).id = (nodes.get ⟨i, hi⟩).id := by
  have h1 : i < nodes.enum.length := by simpa [List.enum_length] using hi
  rw [initNodes, getN_list_map _ _ i h1]
  have h2 : nodes.enum.get ⟨i, h1⟩ = (i, nodes.get ⟨i, hi⟩) := by
    simp [List.get_eq_getElem, List.getElem_enum]
  rw [h2]
  exact ⟨rfl, rfl, rfl⟩

theorem store_length (cfg : Config) (pos : Nat → ℚ × ℚ) (grp : Nat → Nat)
    (ns : List RawNode) (ls : List RawLink) :
    (preprocessData cfg pos grp ns ls).store.length = (truncate cfg ns ls).1.length := by
  simp [preprocessData, processLinks, processAux_length, initNodes_length]

theorem links_eq_resolveAll (cfg : Config) (pos : Nat → ℚ × ℚ) (grp : Nat → Nat)
    (ns : List RawNode) (ls : List RawLink) :
    (preprocessData cfg pos grp ns ls).links
      = resolveAll (nodeById (initNodes pos grp (truncate cfg ns ls).1))
          (truncate cfg ns ls).2 := by
  simp [preprocessData, processLinks, processAux_snd]

theorem getN_store (cfg : Config) (pos : Nat → ℚ × ℚ) (grp : Nat → Nat)
    (ns : List RawNode) (ls : List RawLink) (i : Nat)
    (hi : i < (truncate cfg ns ls).1.length) :
    getN (preprocessData cfg pos grp ns ls).store i
      = setRadius cfg
          (updNode (getN (initNodes pos grp (truncate cfg ns ls).1) i)
            (partners (preprocessData cfg pos grp ns ls).links i)) := by
  have hpn : i < (initNodes pos grp (truncate cfg ns ls).1).length := by
    rw [initNodes_length]; exact hi
  have hres :
      i < (((truncate cfg ns ls).2).foldl
            (linkStep (nodeById (initNodes pos grp (truncate cfg ns ls).1)))
            (initNodes pos grp (truncate cfg ns ls).1, [])).1.length := by
    rw [processAux_length]; exact hpn
  rw [links_eq_resolveAll]
  show getN ((((truncate cfg ns ls).2).foldl
        (linkStep (nodeById (initNodes pos grp (truncate cfg ns ls).1)))
        (initNodes pos grp (truncate cfg ns ls).1, [])).1.map (setRadius cfg)) i = _
  rw [getN_list_map _ _ i hres, ← getN_eq_get _ i hres,
    getN_processAux _ _ _ _ i hpn]

theorem store_degree_neighbors (cfg : Config) (pos : Nat → ℚ × ℚ)
    (grp : Nat → Nat) (ns : List RawNode) (ls : List RawLink) (i : Nat)
    (hi : i < (truncate cfg ns ls).1.length) :
    (getN (preprocessData cfg pos grp ns ls).store i).degree
        = (partners (preprocessData cfg pos grp ns ls).links i).length ∧
    (getN (preprocessData cfg pos grp ns ls).store i).neighbors
        = (partners (preprocessData cfg pos grp ns ls).links i).toFinset := by
  obtain ⟨hd, hn, -⟩ := getN_initNodes pos grp (truncate cfg ns ls).1 i hi
  rw [getN_store cfg pos grp ns ls i hi]
  constructor
  · simp [setRadius, updNode, hd]
  · simp [setRadius, updNode, hn]

theorem store_id (cfg : Config) (pos : Nat → ℚ × ℚ) (grp : Nat → Nat)
    (ns : List RawNode) (ls : List RawLink) (i : Nat)
    (hi : i < (truncate cfg ns ls).1.length) :
    (getN (preprocessData cfg pos grp ns ls).store i).id
      = ((truncate cfg ns ls).1.get ⟨i, hi⟩).id := by
  obtain ⟨-, -, hid⟩ := getN_initNodes pos grp (truncate cfg ns ls).1 i hi
  rw [getN_store cfg pos grp ns ls i hi]
  simpa [setRadius, updNode] using hid

theorem store_radius (cfg : Config) (pos : Nat → ℚ × ℚ) (grp : Nat → Nat)
    (ns : List RawNode) (ls : List RawLink) (i : Nat)
    (hi : i < (truncate cfg ns ls).1.length) :
    (getN (preprocessData cfg pos grp ns ls).store i).radius
      = max cfg.minNodeRadius
          (min cfg.maxNodeRadius
            (((getN (preprocessData cfg pos grp ns ls).store i).degree : ℚ) / 3)) := by
  rw [getN_store cfg pos grp ns ls i hi]
  simp [setRadius, updNode]

/-! Counting lemmas about `partners`. -/

theorem length_partners_of_no_loop :
    ∀ (pl : List PLink) (i : Nat), (∀ l ∈ pl, l.source ≠ l.target) →
      (partners pl i).length = incidentCount pl i
  | [], _, _ => rfl
  | l :: pl, i, h => by
    have hl := h l (List.mem_cons_self l pl)
    have ih := length_partners_of_no_loop pl i
      (fun x hx => h x (List.mem_cons_of_mem l hx))
    by_cases hs : l.source = i
    · have ht : l.target ≠ i := fun e => hl (by rw [hs, e])
      simp [partners, incidentCount, List.filter_cons, hs, ht, ih]
    · by_cases ht : l.target = i
      · simp [partners, incidentCount, List.filter_cons, hs, ht, ih]
      · simp [partners, incidentCount, List.filter_cons, hs, ht, ih]

theorem mem_partners :
    ∀ (pl : List PLink) (i j : Nat),
      j ∈ partners pl i
        ↔ ∃ l ∈ pl, (l.source = i ∧ l.target = j) ∨ (l.target = i ∧ l.source = j)
  | [], i, j => by simp [partners]
  | l :: pl, i, j => by
    by_cases hs : l.source = i <;> by_cases ht : l.target = i <;>
      simp [partners, hs, ht, mem_partners pl i j] <;>
      constructor <;>
      · rintro (h | h) <;> first
          | (obtain ⟨l', hl', hc⟩ := h; exact Or.inr ⟨l', hl', hc⟩)
          | tauto

theorem nodup_partners :
    ∀ (pl : List PLink) (i : Nat), (∀ l ∈ pl, l.source ≠ l.target) →
      pl.Pairwise (fun a b => ¬ samePair a b) → (partners pl i).Nodup
  | [], _, _, _ => List.nodup_nil
  | l :: pl, i, hloop, hpair => by
    have hl := hloop l (List.mem_cons_self l pl)
    obtain ⟨hhead, htail⟩ := List.pairwise_cons.mp hpair
    have ih := nodup_partners pl i
      (fun x hx => hloop x (List.mem_cons_of_mem l hx)) htail
    by_cases hs : l.source = i
    · have ht : l.target ≠ i := fun e => hl (by rw [hs, e])
      simp only [partners, hs, ht, if_pos, if_neg, not_false_iff,
        List.nil_append, List.singleton_append]
      refine List.nodup_cons.mpr ⟨?_, ih⟩
      intro hmem
      obtain ⟨l', hl', hc⟩ := (mem_partners pl i l.target).mp hmem
      refine hhead l' hl' ?_
      rcases hc with ⟨h1, h2⟩ | ⟨h1, h2⟩
      · exact Or.inl ⟨by rw [hs, h1], h2.symm⟩
      · exact Or.inr ⟨by rw [hs, h1], h2.symm⟩
    · by_cases ht : l.target = i
      · simp only [partners, hs, ht, if_pos, if_neg, not_false_iff,
          List.nil_append, List.singleton_append]
        refine List.nodup_cons.mpr ⟨?_, ih⟩
        intro hmem
        obtain ⟨l', hl', hc⟩ := (mem_partners pl i l.source).mp hmem
        refine hhead l' hl' ?_
        rcases hc with ⟨h1, h2⟩ | ⟨h1, h2⟩
        · exact Or.inr ⟨h2.symm, by rw [ht, h1]⟩
        · exact Or.inl ⟨h2.symm, by rw [ht, h1]⟩
      · simpa [partners, hs, ht] using ih

theorem nodeById_spec :
    ∀ (st : List PNode) (q i : Nat), nodeById st q = some i →
      i < st.length ∧ (getN st i).id = q
  | [], q, i, h => by simp [nodeById] at h
  | n :: st, q, i, h => by
    simp only [nodeById] at h
    cases hr : nodeById st q with
    | some j =>
      rw [hr] at h
      injection h with h
      obtain ⟨hlt, hid⟩ := nodeById_spec st q j hr
      subst h
      exact ⟨Nat.succ_lt_succ hlt, hid⟩
    | none =>
      rw [hr] at h
      by_cases hn : n.id = q
      · rw [if_pos hn] at h
        injection h with h
        subst h
        exact ⟨Nat.succ_pos _, hn⟩
      · rw [if_neg hn] at h
        exact absurd h (Option.noConfusion)

theorem links_endpoints_lt (cfg : Config) (pos : Nat → ℚ × ℚ) (grp : Nat → Nat)
    (ns : List RawNode) (ls : List RawLink) (l : PLink)
    (hl : l ∈ (preprocessData cfg pos grp ns ls).links) :
    l.source < (preprocessData cfg pos grp ns ls).store.length ∧
      l.target < (preprocessData cfg pos grp ns ls).store.length := by
  rw [links_eq_resolveAll] at hl
  obtain ⟨raw, -, hres⟩ := List.mem_filterMap.mp hl
  rw [store_length, ← initNodes_length pos grp (truncate cfg ns ls).1]
  cases hs : nodeById (initNodes pos grp (truncate cfg ns ls).1) raw.source with
  | none => rw [hs] at hres; simp at hres
  | some si =>
    cases ht : nodeById (initNodes pos grp (truncate cfg ns ls).1) raw.target with
    | none => rw [hs, ht] at hres; simp at hres
    | some ti =>
      rw [hs, ht] at hres
      injection hres with hres
      subst hres
      exact ⟨(nodeById_spec _ _ _ hs).1, (nodeById_spec _ _ _ ht).1⟩

/-!
Claim C2 — post-truncation degree invariant.

The claim as frozen is false: a self-loop link increments its node's degree
twice (`source.degree++; target.degree++` hit the same object) while it is a
single incident retained link, and it contributes a single neighbor even
though the input has no duplicate source/target pair.  The amended statement
restricts to graphs whose retained links are not self-loops, and reads
"duplicate pair" as joining the same unordered pair in either orientation.
-/

/-- C2, counterexample: on the raw graph with the single node `7` and the
single self-loop link `(7,7)`, the built node's degree is `2`, the number of
retained links incident to it is `1`, and its neighbor set has size `1`,
although the input contains no duplicate source/target link pair.  So the
claim's two equalities both fail at this input. -/
theorem C2_degree_invariant_counterexample :
    (getN loopGraph.store 0).degree = 2 ∧
    incidentCount loopGraph.links 0 = 1 ∧
    (getN loopGraph.store 0).neighbors.card = 1 ∧
    loopGraph.links.Pairwise (fun a b => ¬ samePair a b) ∧
    (getN loopGraph.store 0).degree ≠ incidentCount loopGraph.links 0 ∧
    (getN loopGraph.store 0).neighbors.card ≠ (getN loopGraph.store 0).degree := by
  decide

/-- C2, amended: for every node of the built graph, if no retained link is a
self-loop, the exposed degree equals the number of retained links incident
to the node (recomputed from the retained link set); and if additionally no
two retained links join the same unordered endpoint pair, the neighbor-set
size equals the degree. -/
theorem C2_degree_invariant_amended (cfg : Config) (pos : Nat → ℚ × ℚ)
    (grp : Nat → Nat) (ns : List RawNode) (ls : List RawLink) (i : Nat)
    (hi : i < (preprocessData cfg pos grp ns ls).store.length)
    (hloop : ∀ l ∈ (preprocessData cfg pos grp ns ls).links, l.source ≠ l.target) :
    (getN (preprocessData cfg pos grp ns ls).store i).degree
        = incidentCount (preprocessData cfg pos grp ns ls).links i ∧
    ((preprocessData cfg pos grp ns ls).links.Pairwise (fun a b => ¬ samePair a b) →
      (getN (preprocessData cfg pos grp ns ls).store i).neighbors.card
        = (getN (preprocessData cfg pos grp ns ls).store i).degree) := by
  have hi' : i < (truncate cfg ns ls).1.length := by
    rwa [store_length] at hi
  obtain ⟨hdeg, hnb⟩ := store_degree_neighbors cfg pos grp ns ls i hi'
  constructor
  · rw [hdeg, length_partners_of_no_loop _ _ hloop]
  · intro hdup
    rw [hnb, hdeg, List.toFinset_card_of_nodup (nodup_partners _ _ hloop hdup)]

/-- C2, witness: the amended invariant evaluated on the example graph at the
hub node `1` (index 0, degree 3). -/
theorem C2_degree_invariant_amended_witness :
    (getN exGraph.store 0).degree = incidentCount exGraph.links 0 ∧
    (exGraph.links.Pairwise (fun a b => ¬ samePair a b) →
      (getN exGraph.store 0).neighbors.card = (getN exGraph.store 0).degree) :=
  C2_degree_invariant_amended exCfg exPos exGroup exNodes exLinks 0
    (by decide) (by decide)

/-!
Claim C7 — radius derivation and bounds.
-/

/-- C7: every built node's radius equals `degree / 3` clamped into
`[minNodeRadius, maxNodeRadius]`, computed at build time from the
post-truncation degree; hence (when `minNodeRadius ≤ maxNodeRadius`, as in
the script's config `2 ≤ 6`) the radius lies in the clamp interval, and the
radius is a non-decreasing function of the degree. -/
theorem C7_radius_clamp (cfg : Config) (pos : Nat → ℚ × ℚ) (grp : Nat → Nat)
    (ns : List RawNode) (ls : List RawLink) (i j : Nat)
    (hi : i < (preprocessData cfg pos grp ns ls).store.length)
    (hj : j < (preprocessData cfg pos grp ns ls).store.length)
    (hmm : cfg.minNodeRadius ≤ cfg.maxNodeRadius) :
    (getN (preprocessData cfg pos grp ns ls).store i).radius
        = max cfg.minNodeRadius
            (min cfg.maxNodeRadius
              (((getN (preprocessData cfg pos grp ns ls).store i).degree : ℚ) / 3)) ∧
    cfg.minNodeRadius ≤ (getN (preprocessData cfg pos grp ns ls).store i).radius ∧
    (getN (preprocessData cfg pos grp ns ls).store i).radius ≤ cfg.maxNodeRadius ∧
    ((getN (preprocessData cfg pos grp ns ls).store i).degree
        ≤ (getN (preprocessData cfg pos grp ns ls).store j).degree →
      (getN (preprocessData cfg pos grp ns ls).store i).radius
        ≤ (getN (preprocessData cfg pos grp ns ls).store j).radius) := by
  have hi' : i < (truncate cfg ns ls).1.length := by rwa [store_length] at hi
  have hj' : j < (truncate cfg ns ls).1.length := by rwa [store_length] at hj
  have hri := store_radius cfg pos grp ns ls i hi'
  have hrj := store_radius cfg pos grp ns ls j hj'
  refine ⟨hri, ?_, ?_, ?_⟩
  · rw [hri]; exact le_max_left _ _
  · rw [hri]; exact max_le hmm (min_le_left _ _)
  · intro hd
    rw [hri, hrj]
    have h3 : (((getN (preprocessData cfg pos grp ns ls).store i).degree : ℚ)) / 3
        ≤ (((getN (preprocessData cfg pos grp ns ls).store j).degree : ℚ)) / 3 := by
      gcongr
    exact max_le_max le_rfl (min_le_min le_rfl h3)

/-- C7, witness: the bounds at the isolated node `5` (index 4, degree 0,
radius clamped up to `minNodeRadius = 2`) and monotonicity against the hub
node `1` (index 0, degree 3). -/
theorem C7_radius_clamp_witness :
    (getN exGraph.store 4).radius
        = max exCfg.minNodeRadius
            (min exCfg.maxNodeRadius (((getN exGraph.store 4).degree : ℚ) / 3)) ∧
    exCfg.minNodeRadius ≤ (getN exGraph.store 4).radius ∧
    (getN exGraph.store 4).radius ≤ exCfg.maxNodeRadius ∧
    ((getN exGraph.store 4).degree ≤ (getN exGraph.store 0).degree →
      (getN exGraph.store 4).radius ≤ (getN exGraph.store 0).radius) :=
  C7_radius_clamp exCfg exPos exGroup exNodes exLinks 4 0
    (by decide) (by decide) (by decide)

/-!
Claim C9 — runtime force-parameter changes.
-/

/-- C9: `updateForceParameters` leaves the node arena — hence every node's
current position `(x, y)` and pin `(fx, fy)` — unchanged, as well as the
filtered/hidden/highlight state; it only installs the new charge strength
and link distance and re-warms the cooling parameter to `alpha = 0.3`
instead of restarting from scratch. -/
theorem C9_parameter_change (s : VisState) (c d : ℚ) :
    (updateForceParameters s c d).store = s.store ∧
    (updateForceParameters s c d).alpha = 3/10 ∧
    (updateForceParameters s c d).chargeStrength = c ∧
    (updateForceParameters s c d).linkDistance = d ∧
    (updateForceParameters s c d).filteredNodes = s.filteredNodes ∧
    (updateForceParameters s c d).filteredLinks = s.filteredLinks ∧
    (updateForceParameters s c d).currentHighlighted = s.currentHighlighted ∧
    (updateForceParameters s c d).nodeHidden = s.nodeHidden ∧
    (updateForceParameters s c d).linkHidden = s.linkHidden :=
  ⟨rfl, rfl, rfl, rfl, rfl, rfl, rfl, rfl, rfl⟩

/-!
Claim C10 — the layout export snapshot.
-/

/-- C10: the export snapshot covers exactly the currently filtered
subgraph: one entry per filtered node carrying id/x/y/fx/fy, one entry per
filtered link carrying the endpoint ids, and nothing else — in particular
an id carried by no filtered node appears in no exported node entry. -/
theorem C10_export_snapshot (s : VisState) :
    (exportLayout s).nodes.length = s.filteredNodes.length ∧
    (exportLayout s).links.length = s.filteredLinks.length ∧
    (exportLayout s).meta.nodeCount = s.filteredNodes.length ∧
    (exportLayout s).meta.linkCount = s.filteredLinks.length ∧
    (∀ e ∈ (exportLayout s).nodes, ∃ i ∈ s.filteredNodes,
        e.id = (getN s.store i).id ∧ e.x = (getN s.store i).x ∧
        e.y = (getN s.store i).y ∧ e.fx = (getN s.store i).fx ∧
        e.fy = (getN s.store i).fy) ∧
    (∀ i ∈ s.filteredNodes, ∃ e ∈ (exportLayout s).nodes,
        e.id = (getN s.store i).id ∧ e.x = (getN s.store i).x ∧
        e.y = (getN s.store i).y ∧ e.fx = (getN s.store i).fx ∧
        e.fy = (getN s.store i).fy) ∧
    (∀ e ∈ (exportLayout s).links, ∃ l ∈ s.filteredLinks,
        e.source = (getN s.store l.source).id ∧
        e.target = (getN s.store l.target).id) ∧
    (∀ l ∈ s.filteredLinks, ∃ e ∈ (exportLayout s).links,
        e.source = (getN s.store l.source).id ∧
        e.target = (getN s.store l.target).id) ∧
    (∀ q : Nat, (∀ i ∈ s.filteredNodes, (getN s.store i).id ≠ q) →
      ∀ e ∈ (exportLayout s).nodes, e.id ≠ q) := by
  refine ⟨by simp [exportLayout], by simp [exportLayout], rfl, rfl,
    ?_, ?_, ?_, ?_, ?_⟩
  · intro e he
    obtain ⟨i, hi, rfl⟩ := List.mem_map.mp he
    exact ⟨i, hi, rfl, rfl, rfl, rfl, rfl⟩
  · intro i hi
    exact ⟨_, List.mem_map_of_mem _ hi, rfl, rfl, rfl, rfl, rfl⟩
  · intro e he
    obtain ⟨l, hl, rfl⟩ := List.mem_map.mp he
    exact ⟨l, hl, rfl, rfl⟩
  · intro l hl
    exact ⟨_, List.mem_map_of_mem _ hl, rfl, rfl⟩
  · intro q hq e he
    obtain ⟨i, hi, rfl⟩ := List.mem_map.mp he
    exact hq i hi

/-!
Claim C8 — layout import atomicity.

The claim as frozen is false: `applyLayout` only guards
`layout.nodes && layout.links` and then mutates per entry with no
validation, inside the same try block whose catch reports a corrupt
payload.  On `{"nodes": [{"id": 1, "x": 5, "y": 5}, null], "links": []}`
the first entry overwrites node 1 before `null.id` throws, and the catch
reports the format error — a partial application.  Only the parse-failure
and missing-top-level-field shapes are rejected without mutation.
-/

theorem applyNodesLoop_cons_obj (filtered : List Nat) (st : List PNode)
    (id? : Option Nat) (x y fx fy : Option ℚ) (rest : List LayoutEntry) :
    applyNodesLoop filtered st (LayoutEntry.obj id? x y fx fy :: rest)
      = applyNodesLoop filtered
          (match id? with
            | none => st
            | some q =>
              match filtered.find? (fun i => decide ((getN st i).id = q)) with
              | some i =>
                modifyIdx st i (fun n => { n with x := x, y := y, fx := fx, fy := fy })
              | none => st)
          rest := rfl

theorem applyNodesLoop_cons_obj_none (filtered : List Nat) (st : List PNode)
    (x y fx fy : Option ℚ) (rest : List LayoutEntry) :
    applyNodesLoop filtered st (LayoutEntry.obj none x y fx fy :: rest)
      = applyNodesLoop filtered st rest := rfl

theorem applyNodesLoop_cons_obj_some (filtered : List Nat) (st : List PNode)
    (q : Nat) (x y fx fy : Option ℚ) (rest : List LayoutEntry) :
    applyNodesLoop filtered st (LayoutEntry.obj (some q) x y fx fy :: rest)
      = applyNodesLoop filtered
          (match filtered.find? (fun i => decide ((getN st i).id = q)) with
            | some i =>
              modifyIdx st i (fun n => { n with x := x, y := y, fx := fx, fy := fy })
            | none => st)
          rest := rfl

theorem applyLayout_some_some (s : VisState) (entries : List LayoutEntry)
    (lks : List LayoutLink) :
    applyLayout s { nodes := some entries, links := some lks }
      = (if (applyNodesLoop s.filteredNodes s.store entries).2
          then ({ s with store := (applyNodesLoop s.filteredNodes s.store entries).1 },
                ImportOutcome.formatError)
          else ({ s with
                  store := (applyNodesLoop s.filteredNodes s.store entries).1
                  alpha := 1/10 }, ImportOutcome.ok)) := rfl

theorem applyNodesLoop_unknown :
    ∀ (entries : List LayoutEntry) (filtered : List Nat) (st : List PNode),
      (∀ e ∈ entries, e ≠ LayoutEntry.null) →
      (∀ e ∈ entries, ∀ (q : Nat) (x y fx fy : Option ℚ),
        e = LayoutEntry.obj (some q) x y fx fy →
        ∀ i ∈ filtered, (getN st i).id ≠ q) →
      applyNodesLoop filtered st entries = (st, false)
  | [], _, _, _, _ => rfl
  | LayoutEntry.null :: entries, _, _, hnull, _ =>
    absurd rfl (hnull _ (List.mem_cons_self _ entries))
  | LayoutEntry.obj id? x y fx fy :: entries, filtered, st, hnull, hunk => by
    have htail := applyNodesLoop_unknown entries filtered st
      (fun e he => hnull e (List.mem_cons_of_mem _ he))
      (fun e he => hunk e (List.mem_cons_of_mem _ he))
    cases id? with
    | none =>
      rw [applyNodesLoop_cons_obj_none]
      exact htail
    | some q =>
      have hfind : filtered.find? (fun i => decide ((getN st i).id = q)) = none :=
        List.find?_eq_none.mpr (fun i hi => by
          simpa using hunk _ (List.mem_cons_self _ entries) q x y fx fy rfl i hi)
      rw [applyNodesLoop_cons_obj_some, hfind]
      exact htail

theorem applyNodesLoop_append_null (filtered : List Nat) :
    ∀ (entries : List LayoutEntry) (st : List PNode)
      (rest : List LayoutEntry),
      applyNodesLoop filtered st (entries ++ LayoutEntry.null :: rest)
        = ((applyNodesLoop filtered st entries).1, true)
  | [], st, rest => rfl
  | LayoutEntry.null :: entries, st, rest => rfl
  | LayoutEntry.obj id? x y fx fy :: entries, st, rest => by
    rw [List.cons_append, applyNodesLoop_cons_obj, applyNodesLoop_cons_obj,
      applyNodesLoop_append_null filtered entries _ rest]

theorem length_applyNodesLoop (filtered : List Nat) :
    ∀ (entries : List LayoutEntry) (st : List PNode),
      ((applyNodesLoop filtered st entries).1).length = st.length
  | [], _ => rfl
  | LayoutEntry.null :: _, _ => rfl
  | LayoutEntry.obj id? x y fx fy :: entries, st => by
    cases id? with
    | none =>
      rw [applyNodesLoop_cons_obj_none]
      exact length_applyNodesLoop filtered entries st
    | some q =>
      rw [applyNodesLoop_cons_obj_some]
      cases hf : filtered.find? (fun i => decide ((getN st i).id = q)) with
      | none =>
        exact length_applyNodesLoop filtered entries st
      | some i =>
        exact (length_applyNodesLoop filtered entries _).trans
          (length_modifyIdx st i _)

/-- C8, counterexample: the parseable corrupt payload
`{"nodes": [{"id": 1, "x": 5, "y": 5}, null], "links": []}` is reported as
a format error (the `TypeError` on `null.id` lands in the same catch as a
parse failure), yet node 1's position has already been overwritten from its
initial `(0, 0)` to `(5, 5)` — state mutates on a corrupt payload, so there
is no wholesale rejection before mutation. -/
theorem C8_import_atomic_counterexample :
    (importLayout exState (some corruptPayload)).2 = ImportOutcome.formatError ∧
    (getN exState.store 0).id = 1 ∧
    (getN exState.store 0).x = some 0 ∧
    (getN (importLayout exState (some corruptPayload)).1.store 0).x = some 5 ∧
    (getN (importLayout exState (some corruptPayload)).1.store 0).x
      ≠ (getN exState.store 0).x := by
  decide

/-- C8, amended: an unparseable payload is rejected with no state change;
a payload missing its top-level `nodes` or `links` field changes nothing
(silently); object entries whose id is absent or matches no filtered node
are all ignored without error, the completed loop only re-warming
`alpha(0.1)`; no import ever changes the node count; but a payload whose
entry list reaches a `null` entry is reported as a format error only
*after* every entry before the `null` has been applied — those mutations
persist and the alpha re-warm is skipped, so rejection is not wholesale. -/
theorem C8_import_atomic_amended (s : VisState) (l : LayoutPayload)
    (p : Option LayoutPayload) (entries rest : List LayoutEntry)
    (lks : List LayoutLink)
    (hcorrupt : l.nodes = none ∨ l.links = none)
    (hnonull : ∀ e ∈ entries, e ≠ LayoutEntry.null)
    (hunknown : ∀ e ∈ entries, ∀ (q : Nat) (x y fx fy : Option ℚ),
        e = LayoutEntry.obj (some q) x y fx fy →
        ∀ i ∈ s.filteredNodes, (getN s.store i).id ≠ q) :
    importLayout s none = (s, ImportOutcome.formatError) ∧
    importLayout s (some l) = (s, ImportOutcome.ok) ∧
    importLayout s (some { nodes := some entries, links := some lks })
        = ({ s with alpha := 1/10 }, ImportOutcome.ok) ∧
    (∀ entries2 : List LayoutEntry,
        importLayout s
            (some { nodes := some (entries2 ++ LayoutEntry.null :: rest),
                    links := some lks })
          = ({ s with
                store := (applyNodesLoop s.filteredNodes s.store entries2).1 },
              ImportOutcome.formatError)) ∧
    (importLayout s p).1.store.length = s.store.length := by
  refine ⟨rfl, ?_, ?_, ?_, ?_⟩
  · cases l with
    | mk nodes links =>
      rcases hcorrupt with h | h
      · have h' : nodes = none := h
        subst h'
        rw [importLayout, applyLayout]
      · have h' : links = none := h
        subst h'
        cases nodes with
        | none => rw [importLayout, applyLayout]
        | some v => rw [importLayout, applyLayout]
  · rw [importLayout, applyLayout_some_some,
      applyNodesLoop_unknown entries s.filteredNodes s.store hnonull hunknown]
    simp
  · intro entries2
    rw [importLayout, applyLayout_some_some,
      applyNodesLoop_append_null s.filteredNodes entries2 s.store rest]
    simp
  · cases p with
    | none => rfl
    | some l' =>
      cases l' with
      | mk nodes links =>
        cases nodes with
        | none => rw [importLayout, applyLayout]
        | some v =>
          cases links with
          | none => rw [importLayout, applyLayout]
          | some w =>
            rw [importLayout, applyLayout_some_some]
            cases hb : (applyNodesLoop s.filteredNodes s.store v).2 with
            | false => simp [hb, length_applyNodesLoop]
            | true => simp [hb, length_applyNodesLoop]

/-- C8, witness: on the example state — a parse failure; a payload missing
`nodes`; a payload whose single entry carries the unknown id 99 (ignored,
alpha re-warmed); a payload hitting a `null` entry first (no prior
mutation, format error); and node-count preservation across the corrupt
payload that does mutate node 1. -/
theorem C8_import_atomic_amended_witness :
    importLayout exState none = (exState, ImportOutcome.formatError) ∧
    importLayout exState (some { nodes := none, links := some [] })
        = (exState, ImportOutcome.ok) ∧
    importLayout exState
        (some { nodes := some [LayoutEntry.obj (some 99) (some 5) (some 5) none none],
                links := some [] })
        = ({ exState with alpha := 1/10 }, ImportOutcome.ok) ∧
    (∀ entries2 : List LayoutEntry,
        importLayout exState
            (some { nodes := some (entries2 ++ LayoutEntry.null :: []),
                    links := some [] })
          = ({ exState with
                store := (applyNodesLoop exState.filteredNodes exState.store entries2).1 },
              ImportOutcome.formatError)) ∧
    (importLayout exState (some corruptPayload)).1.store.length
        = exState.store.length :=
  C8_import_atomic_amended exState { nodes := none, links := some [] }
    (some corruptPayload)
    [LayoutEntry.obj (some 99) (some 5) (some 5) none none] [] []
    (Or.inl rfl) (by decide)
    (by
      intro e he q x y fx fy heq
      rw [List.mem_singleton] at he
      subst he
      injection heq with h1 h2 h3 h4 h5
      injection h1 with h1
      subst h1
      decide)

/-!
Claim C3 — the degree filter.
-/

/-- C3: for any threshold, the filtered node set is exactly the full-graph
nodes of degree at most the threshold; the filtered link set is exactly the
full-graph links with both endpoints in that node set (given the built-graph
invariant that link endpoints are valid arena slots); both sets grow
monotonically with the threshold; and on the spec's example graph
(`maxNodes = 5`, degrees `{1:3, 2:2, 3:2, 4:1, 5:0}`) the threshold `2`
leaves nodes `{2,3,4,5}` and the single link `(2,3)`. -/
theorem C3_filter_by_degree (s : VisState) (d d1 d2 : Nat) (i : Nat) (l : PLink)
    (hv : ∀ l' ∈ s.dataLinks,
        l'.source < s.store.length ∧ l'.target < s.store.length)
    (hd : d1 ≤ d2) :
    (i ∈ (filterByDegree s d).filteredNodes
        ↔ i < s.store.length ∧ (getN s.store i).degree ≤ d) ∧
    (l ∈ (filterByDegree s d).filteredLinks
        ↔ l ∈ s.dataLinks ∧ l.source ∈ (filterByDegree s d).filteredNodes
            ∧ l.target ∈ (filterByDegree s d).filteredNodes) ∧
    (i ∈ (filterByDegree s d1).filteredNodes
        → i ∈ (filterByDegree s d2).filteredNodes) ∧
    (l ∈ (filterByDegree s d1).filteredLinks
        → l ∈ (filterByDegree s d2).filteredLinks) ∧
    exGraph.store.map PNode.id = [1, 2, 3, 4, 5] ∧
    exGraph.store.map PNode.degree = [3, 2, 2, 1, 0] ∧
    (filterByDegree exState 2).filteredNodes.map
        (fun k => (getN exGraph.store k).id) = [2, 3, 4, 5] ∧
    (filterByDegree exState 2).filteredLinks.map
        (fun w => ((getN exGraph.store w.source).id, (getN exGraph.store w.target).id))
      = [(2, 3)] := by
  have hnodes : ∀ (dd k : Nat), k ∈ (filterByDegree s dd).filteredNodes
      ↔ k < s.store.length ∧ (getN s.store k).degree ≤ dd := by
    intro dd k
    simp [filterByDegree, updateVisualization, List.mem_filter, List.mem_range]
  have hlinks : ∀ (dd : Nat) (w : PLink), w ∈ (filterByDegree s dd).filteredLinks
      ↔ w ∈ s.dataLinks ∧ (getN s.store w.source).degree ≤ dd
          ∧ (getN s.store w.target).degree ≤ dd := by
    intro dd w
    simp [filterByDegree, updateVisualization, List.mem_filter]
  refine ⟨hnodes d i, ?_, ?_, ?_, by decide, by decide, by decide, by decide⟩
  · rw [hlinks d l, hnodes d l.source, hnodes d l.target]
    constructor
    · rintro ⟨hmem, hs, hh⟩
      obtain ⟨b1, b2⟩ := hv l hmem
      exact ⟨hmem, ⟨b1, hs⟩, ⟨b2, hh⟩⟩
    · rintro ⟨hmem, ⟨-, hs⟩, ⟨-, hh⟩⟩
      exact ⟨hmem, hs, hh⟩
  · rw [hnodes d1 i, hnodes d2 i]
    rintro ⟨h1, h2⟩
    exact ⟨h1, le_trans h2 hd⟩
  · rw [hlinks d1 l, hlinks d2 l]
    rintro ⟨h1, h2, h3⟩
    exact ⟨h1, le_trans h2 hd, le_trans h3 hd⟩

/-- C3, witness: the filter characterization evaluated on the example state
at threshold 2 (with thresholds 1 ≤ 2 for monotonicity), at node index 1
and at the link `(2,3)`. -/
theorem C3_filter_by_degree_witness :
    ((1 : Nat) ∈ (filterByDegree exState 2).filteredNodes
        ↔ 1 < exState.store.length ∧ (getN exState.store 1).degree ≤ 2) ∧
    (({ source := 1, target := 2, raw := { source := 2, target := 3 } } : PLink)
          ∈ (filterByDegree exState 2).filteredLinks
        ↔ ({ source := 1, target := 2, raw := { source := 2, target := 3 } } : PLink)
              ∈ exState.dataLinks
            ∧ (1 : Nat) ∈ (filterByDegree exState 2).filteredNodes
            ∧ (2 : Nat) ∈ (filterByDegree exState 2).filteredNodes) ∧
    ((1 : Nat) ∈ (filterByDegree exState 1).filteredNodes
        → (1 : Nat) ∈ (filterByDegree exState 2).filteredNodes) ∧
    (({ source := 1, target := 2, raw := { source := 2, target := 3 } } : PLink)
          ∈ (filterByDegree exState 1).filteredLinks
        → ({ source := 1, target := 2, raw := { source := 2, target := 3 } } : PLink)
            ∈ (filterByDegree exState 2).filteredLinks) ∧
    exGraph.store.map PNode.id = [1, 2, 3, 4, 5] ∧
    exGraph.store.map PNode.degree = [3, 2, 2, 1, 0] ∧
    (filterByDegree exState 2).filteredNodes.map
        (fun k => (getN exGraph.store k).id) = [2, 3, 4, 5] ∧
    (filterByDegree exState 2).filteredLinks.map
        (fun w => ((getN exGraph.store w.source).id, (getN exGraph.store w.target).id))
      = [(2, 3)] :=
  C3_filter_by_degree exState 2 1 2 1
    { source := 1, target := 2, raw := { source := 2, target := 3 } }
    (by decide) (by decide)

/-!
Claim C4 — search/focus lookup.

The claim as frozen is false: `searchNode` runs its `find` over
`this.filteredData.nodes`, the currently visible subset, not the full
graph, so an id that exists in the full graph but is filtered out reports
NotFound.
-/

/-- C4, counterexample: after `filterByDegree(2)` the hub node id `1`
(degree 3) is still in the full graph but `searchNode("1")` reports
NotFound. -/
theorem C4_focus_counterexample :
    (searchNode (filterByDegree exState 2) 1).2 = SearchResult.notFound ∧
    1 ∈ exGraph.store.map PNode.id ∧
    (filterByDegree exState 2).store = exGraph.store :=
  ⟨by decide, by decide, rfl⟩

/-- C4, amended: the lookup runs over the currently visible (filtered)
subset: NotFound is returned exactly when no filtered node carries the id;
on success the first filtered match becomes the focus, any prior focus
being cleared (the focus is a single optional field, so at most one node is
focused at a time). -/
theorem C4_focus_amended (s : VisState) (q i : Nat) :
    ((searchNode s q).2 = SearchResult.notFound
        ↔ ∀ j ∈ s.filteredNodes, (getN s.store j).id ≠ q) ∧
    ((searchNode s q).2 = SearchResult.found i →
      (searchNode s q).1.currentHighlighted = some i ∧
        i ∈ s.filteredNodes ∧ (getN s.store i).id = q) := by
  cases hf : s.filteredNodes.find? (fun j => decide ((getN s.store j).id = q)) with
  | none =>
    have h1 : (searchNode s q).2 = SearchResult.notFound := by
      simp [searchNode, hf]
    refine ⟨iff_of_true h1 ?_, ?_⟩
    · intro j hj
      simpa using List.find?_eq_none.mp hf j hj
    · intro hfound
      rw [h1] at hfound
      exact SearchResult.noConfusion hfound
  | some j =>
    have h1 : (searchNode s q).1 = highlightNode s j := by
      simp [searchNode, hf]
    have h2 : (searchNode s q).2 = SearchResult.found j := by
      simp [searchNode, hf]
    refine ⟨?_, ?_⟩
    · rw [h2]
      refine iff_of_false (fun e => SearchResult.noConfusion e) ?_
      intro hall
      exact hall j (List.mem_of_find?_eq_some hf)
        (by simpa using List.find?_some hf)
    · intro hfound
      rw [h2] at hfound
      injection hfound with hij
      subst hij
      exact ⟨by rw [h1]; rfl, List.mem_of_find?_eq_some hf,
        by simpa using List.find?_some hf⟩

/-- C4, witness: on the unfiltered example state, searching id 2 finds the
node at arena index 1 and focuses it. -/
theorem C4_focus_amended_witness :
    ((searchNode exState 2).2 = SearchResult.notFound
        ↔ ∀ j ∈ exState.filteredNodes, (getN exState.store j).id ≠ 2) ∧
    ((searchNode exState 2).2 = SearchResult.found 1 →
      (searchNode exState 2).1.currentHighlighted = some 1 ∧
        1 ∈ exState.filteredNodes ∧ (getN exState.store 1).id = 2) :=
  C4_focus_amended exState 2 1

/-!
Claim C5 — filter changes and simulation restarts.

The claim as frozen is false for display-mode changes: `setDisplayMode`
only toggles `hidden` CSS classes on the rendered elements and never
touches the simulation's node/link arrays or its alpha; only
`filterByDegree` (via `updateVisualization`) restarts the engine.
-/

/-- C5, counterexample: with node 1 highlighted on the example state,
switching the display mode to neighbors-only shrinks the visible subgraph
to four nodes, yet the simulation still holds all five nodes and alpha is
unchanged at its initial `0.3` — no restart on the new visible subgraph
happens. -/
theorem C5_restart_counterexample :
    setDisplayMode ((searchNode exState 1).1) DisplayMode.neighbors
        = some (showNeighborsOnly ((searchNode exState 1).1)) ∧
    visibleNodeIdxs (showNeighborsOnly ((searchNode exState 1).1)) = [0, 1, 2, 3] ∧
    (showNeighborsOnly ((searchNode exState 1).1)).simNodes = [0, 1, 2, 3, 4] ∧
    (showNeighborsOnly ((searchNode exState 1).1)).alpha = 3/10 ∧
    ((searchNode exState 1).1).alpha = 3/10 := by
  exact ⟨rfl, by decide, by decide, rfl, rfl⟩

/-- C5, amended: a degree-threshold change does restart the simulation on
the newly filtered subgraph — the simulation node/link arrays become the
filtered sets and alpha is reset to 1 — while a display-mode change leaves
the simulation arrays, alpha, the arena and the filtered sets all
unchanged, toggling only the hidden flags. -/
theorem C5_restart_amended (s s' : VisState) (d : Nat) (m : DisplayMode)
    (hm : setDisplayMode s m = some s') :
    (filterByDegree s d).simNodes = (filterByDegree s d).filteredNodes ∧
    (filterByDegree s d).simLinks = (filterByDegree s d).filteredLinks ∧
    (filterByDegree s d).alpha = 1 ∧
    s'.simNodes = s.simNodes ∧
    s'.simLinks = s.simLinks ∧
    s'.alpha = s.alpha ∧
    s'.store = s.store ∧
    s'.filteredNodes = s.filteredNodes ∧
    s'.filteredLinks = s.filteredLinks := by
  have hrest : s'.simNodes = s.simNodes ∧ s'.simLinks = s.simLinks ∧
      s'.alpha = s.alpha ∧ s'.store = s.store ∧
      s'.filteredNodes = s.filteredNodes ∧ s'.filteredLinks = s.filteredLinks := by
    cases m with
    | all =>
      rw [setDisplayMode] at hm
      injection hm with hm
      subst hm
      exact ⟨rfl, rfl, rfl, rfl, rfl, rfl⟩
    | neighbors =>
      rw [setDisplayMode] at hm
      injection hm with hm
      subst hm
      cases hch : s.currentHighlighted with
      | none => simp [showNeighborsOnly, hch]
      | some h => simp [showNeighborsOnly, hch]
    | highlighted =>
      rw [setDisplayMode, showHighlightedOnly] at hm
      by_cases hc : s.filteredNodes.isEmpty && s.filteredLinks.isEmpty
      · rw [if_pos hc] at hm
        injection hm with hm
        subst hm
        exact ⟨rfl, rfl, rfl, rfl, rfl, rfl⟩
      · rw [if_neg hc] at hm
        exact Option.noConfusion hm
  exact ⟨rfl, rfl, rfl, hrest.1, hrest.2.1, hrest.2.2.1, hrest.2.2.2.1,
    hrest.2.2.2.2.1, hrest.2.2.2.2.2⟩

/-- C5, witness: the amended statement at the example state, threshold 2
and the all-nodes display mode. -/
theorem C5_restart_amended_witness :
    (filterByDegree exState 2).simNodes = (filterByDegree exState 2).filteredNodes ∧
    (filterByDegree exState 2).simLinks = (filterByDegree exState 2).filteredLinks ∧
    (filterByDegree exState 2).alpha = 1 ∧
    (showAllNodes exState).simNodes = exState.simNodes ∧
    (showAllNodes exState).simLinks = exState.simLinks ∧
    (showAllNodes exState).alpha = exState.alpha ∧
    (showAllNodes exState).store = exState.store ∧
    (showAllNodes exState).filteredNodes = exState.filteredNodes ∧
    (showAllNodes exState).filteredLinks = exState.filteredLinks :=
  C5_restart_amended exState (showAllNodes exState) 2 DisplayMode.all rfl

/-!
Claim C6 — the neighbors-only display mode.

The no-op half of the claim holds.  The visibility half is false in
general: the mode operates on the rendered elements, which are bound to the
currently filtered subset, so a neighbor that an earlier degree filter
removed stays invisible — the visible set is the intersection of
({highlighted} ∪ neighbors) with the filtered subset, not the full
neighbor set.
-/

theorem filterMap_zip_map {α : Type} (p : α → Bool) :
    ∀ (xs : List α),
      (xs.zip (xs.map p)).filterMap (fun q => if q.2 then none else some q.1)
        = xs.filter (fun a => !(p a))
  | [] => rfl
  | a :: xs => by
    by_cases h : p a <;>
      simp [List.filter_cons, h, filterMap_zip_map p xs]

/-- C6, counterexample: highlight node 2 (arena index 1, neighbors
`{1, 3}` by id), then filter to degree ≤ 2 (removing node 1), then apply
neighbors-only: node 1 — a neighbor of the highlighted node — is not
visible, so the visible set is not `{highlighted} ∪ neighbors`. -/
theorem C6_neighbors_only_counterexample :
    (filterByDegree ((searchNode exState 2).1) 2).currentHighlighted = some 1 ∧
    (getN exGraph.store 1).id = 2 ∧
    0 ∈ (getN exGraph.store 1).neighbors ∧
    (getN exGraph.store 0).id = 1 ∧
    visibleNodeIdxs
        (showNeighborsOnly (filterByDegree ((searchNode exState 2).1) 2)) = [1, 2] ∧
    (0 : Nat) ∉ visibleNodeIdxs
        (showNeighborsOnly (filterByDegree ((searchNode exState 2).1) 2)) := by
  decide

/-- C6, amended: when a node is highlighted, neighbors-only makes visible
exactly the rendered (filtered) nodes that are the highlighted node (by id)
or in its neighbor set, i.e. `({highlighted} ∪ neighbors) ∩ filtered`, and
exactly the rendered links with an endpoint id equal to the highlighted id;
when nothing is highlighted the operation is a strict no-op. -/
theorem C6_neighbors_only_amended (s t : VisState) (h : Nat)
    (hh : s.currentHighlighted = some h)
    (ht : t.currentHighlighted = none) :
    visibleNodeIdxs (showNeighborsOnly s)
        = s.filteredNodes.filter (fun i =>
            decide ((getN s.store i).id = (getN s.store h).id ∨
              i ∈ (getN s.store h).neighbors)) ∧
    visibleLinks (showNeighborsOnly s)
        = s.filteredLinks.filter (fun l =>
            decide ((getN s.store l.source).id = (getN s.store h).id ∨
              (getN s.store l.target).id = (getN s.store h).id)) ∧
    showNeighborsOnly t = t := by
  refine ⟨?_, ?_, by rw [showNeighborsOnly, ht]⟩
  · rw [visibleNodeIdxs]
    simp only [showNeighborsOnly, hh]
    rw [filterMap_zip_map]
    apply List.filter_congr
    intro i _
    rw [← decide_not]
    apply decide_eq_decide.mpr
    constructor
    · intro hn
      by_cases he : (getN s.store i).id = (getN s.store h).id
      · exact Or.inl he
      · exact Or.inr (not_not.mp (fun hm => hn ⟨he, hm⟩))
    · rintro (he | hm) ⟨hne, hnm⟩
      · exact hne he
      · exact hnm hm
  · rw [visibleLinks]
    simp only [showNeighborsOnly, hh]
    rw [filterMap_zip_map]
    apply List.filter_congr
    intro l _
    rw [← decide_not]
    apply decide_eq_decide.mpr
    constructor
    · intro hn
      by_cases he : (getN s.store l.source).id = (getN s.store h).id
      · exact Or.inl he
      · exact Or.inr (not_not.mp (fun hm => hn ⟨he, hm⟩))
    · rintro (he | hm) ⟨hne, hnm⟩
      · exact hne he
      · exact hnm hm

/-- C6, witness: the amended statement with node 1 highlighted on the
unfiltered example state (where the visible set is indeed the highlighted
node with all its neighbors), and the example state itself for the no-op
half. -/
theorem C6_neighbors_only_amended_witness :
    visibleNodeIdxs (showNeighborsOnly ((searchNode exState 1).1))
        = ((searchNode exState 1).1).filteredNodes.filter (fun i =>
            decide ((getN ((searchNode exState 1).1).store i).id
                = (getN ((searchNode exState 1).1).store 0).id ∨
              i ∈ (getN ((searchNode exState 1).1).store 0).neighbors)) ∧
    visibleLinks (showNeighborsOnly ((searchNode exState 1).1))
        = ((searchNode exState 1).1).filteredLinks.filter (fun l =>
            decide ((getN ((searchNode exState 1).1).store l.source).id
                = (getN ((searchNode exState 1).1).store 0).id ∨
              (getN ((searchNode exState 1).1).store l.target).id
                = (getN ((searchNode exState 1).1).store 0).id)) ∧
    showNeighborsOnly exState = exState :=
  C6_neighbors_only_amended ((searchNode exState 1).1) exState 0
    (by decide) rfl

/-!
Claim C1 — truncation of oversize graphs.
-/

theorem degLe_trans (deg : Nat → Nat) :
    ∀ (a b c : Nat × RawNode), degLe deg a b → degLe deg b c → degLe deg a c := by
  intro a b c hab hbc
  simp only [degLe, decide_eq_true_eq] at hab hbc ⊢
  rcases hab with h1 | ⟨h1, h2⟩ <;> rcases hbc with h3 | ⟨h3, h4⟩
  · exact Or.inl (lt_trans h3 h1)
  · exact Or.inl (h3 ▸ h1)
  · exact Or.inl (h1 ▸ h3)
  · exact Or.inr ⟨h1.trans h3, le_trans h2 h4⟩

theorem degLe_total (deg : Nat → Nat) :
    ∀ (a b : Nat × RawNode), degLe deg a b || degLe deg b a := by
  intro a b
  simp only [degLe, Bool.or_eq_true, decide_eq_true_eq]
  rcases lt_trichotomy (deg a.2.id) (deg b.2.id) with h | h | h
  · exact Or.inr (Or.inl h)
  · rcases le_total a.1 b.1 with h2 | h2
    · exact Or.inl (Or.inr ⟨h, h2⟩)
    · exact Or.inr (Or.inr ⟨h.symm, h2⟩)
  · exact Or.inl (Or.inl h)

/-- C1: for every raw graph with more nodes than `maxNodes`, the build
returns exactly `maxNodes` nodes, selected as the top `maxNodes` by
pre-truncation degree (the counter fed by every raw link, known ids or
not) in descending order with the original input order as tie-break, and
every retained link points at retained nodes only. -/
theorem C1_truncation (cfg : Config) (pos : Nat → ℚ × ℚ) (grp : Nat → Nat)
    (ns : List RawNode) (ls : List RawLink) (h : cfg.maxNodes < ns.length) :
    TruncationSpec cfg ns ls (preprocessData cfg pos grp ns ls) := by
  set deg := nodeDegrees ls with hdeg
  set S := (ns.enum).mergeSort (degLe deg) with hS
  set sel := S.take cfg.maxNodes with hsel
  have htr1 : (truncate cfg ns ls).1 = sel.map (fun p => p.2) := by
    rw [truncate, if_pos h]
  have hSlen : S.length = ns.length := by
    rw [hS, List.length_mergeSort, List.enum_length]
  have hsellen : sel.length = cfg.maxNodes := by
    rw [hsel, List.length_take, hSlen]
    exact Nat.min_eq_left (le_of_lt h)
  have hperm : List.Perm S ns.enum := List.mergeSort_perm ns.enum (degLe deg)
  have hpairS : S.Pairwise (fun a b => degLe deg a b) :=
    List.sorted_mergeSort (degLe_trans deg) (degLe_total deg) ns.enum
  have hnodupS : (S.map Prod.fst).Nodup := by
    have hr : (ns.enum.map Prod.fst).Nodup := by
      rw [List.enum_map_fst]
      exact List.nodup_range _
    exact ((hperm.map Prod.fst).nodup_iff).mpr hr
  have hnodupsel : (sel.map Prod.fst).Nodup :=
    List.Nodup.sublist ((List.take_sublist _ _).map _) hnodupS
  have happ : sel ++ S.drop cfg.maxNodes = S := List.take_append_drop _ _
  refine ⟨?_, ⟨sel, ?_, ?_, hnodupsel, ?_, ?_⟩,
    fun l hl => links_endpoints_lt cfg pos grp ns ls l hl⟩
  · rw [store_length, htr1, List.length_map, hsellen]
  · apply List.ext_getElem
    · rw [List.length_map, List.length_map, store_length, htr1, List.length_map]
    · intro k h1 h2
      have hksel : k < sel.length := by simpa using h2
      have hk1 : k < (truncate cfg ns ls).1.length := by
        rw [htr1, List.length_map]
        exact hksel
      have hkst : k < (preprocessData cfg pos grp ns ls).store.length := by
        simpa using h1
      have hkselm : k < (sel.map (fun p => p.2)).length := by
        simpa using hksel
      have e1 : getN (preprocessData cfg pos grp ns ls).store k
          = (preprocessData cfg pos grp ns ls).store[k] := by
        rw [getN_eq_get _ _ hkst, List.get_eq_getElem]
      rw [List.getElem_map, List.getElem_map, ← e1,
        store_id cfg pos grp ns ls k hk1, List.get_eq_getElem]
      have e2 : (truncate cfg ns ls).1[k]
          = (sel.map (fun p => p.2))[k] := by
        congr 1
      rw [e2, List.getElem_map]
  · intro p hp
    have hpS : p ∈ S := List.take_subset _ _ hp
    have hpe : p ∈ ns.enum := (List.mem_mergeSort).mp hpS
    obtain ⟨a, b⟩ := p
    exact List.mk_mem_enum_iff_getElem?.mp hpe
  · have hstrict : sel.Pairwise (fun a b => degLe deg a b = true ∧ a.1 ≠ b.1) := by
      refine List.Pairwise.and (hpairS.sublist (List.take_sublist _ _)) ?_
      exact (List.pairwise_map).mp hnodupsel
    refine hstrict.imp ?_
    intro a b hab
    obtain ⟨h1, h2⟩ := hab
    simp only [degLe, decide_eq_true_eq] at h1
    rcases h1 with h1 | ⟨h1, h3⟩
    · exact Or.inl h1
    · exact Or.inr ⟨h1, lt_of_le_of_ne h3 h2⟩
  · intro q x hq hqnot p hp
    have hqenum : (q, x) ∈ ns.enum := List.mk_mem_enum_iff_getElem?.mpr hq
    have hqS : (q, x) ∈ S := (List.mem_mergeSort).mpr hqenum
    have hq2 : (q, x) ∈ S.drop cfg.maxNodes := by
      rcases List.mem_append.mp (happ ▸ hqS) with hin | hout
      · exact absurd (List.mem_map_of_mem Prod.fst hin) hqnot
      · exact hout
    have hpair2 : (sel ++ S.drop cfg.maxNodes).Pairwise (fun a b => degLe deg a b) := by
      rw [happ]
      exact hpairS
    have hpq : degLe deg p (q, x) = true :=
      (List.pairwise_append.mp hpair2).2.2 p hp (q, x) hq2
    have hne : p.1 ≠ q := by
      intro e
      exact hqnot (e ▸ List.mem_map_of_mem Prod.fst hp)
    simp only [degLe, decide_eq_true_eq] at hpq
    rcases hpq with h1 | ⟨h1, h2⟩
    · exact Or.inl h1
    · exact Or.inr ⟨h1.symm, lt_of_le_of_ne h2 hne⟩

/-- C1, witness: the truncation property on a 3-node graph cut to
`maxNodes = 2`; the link `(99, 20)` whose source id is absent from the node
list still raises node 20's pre-truncation rank. -/
theorem C1_truncation_witness :
    TruncationSpec truncCfg truncNodes truncLinks
      (preprocessData truncCfg exPos exGroup truncNodes truncLinks) :=
  C1_truncation truncCfg exPos exGroup truncNodes truncLinks (by decide)

end SnapGraphVis
